import Mathlib

/-!
Shallow embedding of the pdf-tools repository (merge_pdfs.py, pdf_merge_tool.py,
pdf_tool_gui.py) and proofs about its filename-pairing, output-naming, merging
and GUI-validation logic.

Conventions of the embedding:
- A directory listing is a `List String` of filenames (os.listdir order is
  arbitrary, so all statements are over an arbitrary list).
- Python `None` becomes `Option.none`; note that Python's `None == None` is
  `True`, which matches equality of `Option Nat` values.
- Characters are compared as ASCII; Python's `str.lower`, `\s` and `\d` also
  handle further Unicode classes, which no filename in any claim exercises.
- The external pypdf library is modelled per the spec (section 6): a document is
  its page stream (a list of page identifiers) and `PdfWriter.append`
  concatenates page streams in call order.
- The filesystem is abstracted: `os.path.isfile` becomes an oracle
  `String → Bool` parameter where a function consults it.
-/

/-- String constants of the source code. -/
def pdfExt : String := ".pdf"

/-- Tail of the ".pdf" pattern, used by the replace model. -/
def pdfTail : List Char := ("pdf").toList

/-- Marker substring distinguishing resolution documents (source: "cb3 reso"). -/
def cb3Marker : String := "cb3 reso"

/-- Replacement text used when deriving the automatic-flow output name. -/
def stipSuffix : String := " wSTIPS.pdf"

/-- ASCII whitespace characters matched by Python's regex class backslash-s. -/
def isPySpace (c : Char) : Bool :=
  c == ' ' || c == '\t' || c == '\n' || c == '\x0d' || c == '\x0c' || c == '\x0b'

/-- Drop the maximal leading run of whitespace, as the regex prefix does. -/
def dropPySpaces : List Char → List Char
  | [] => []
  | c :: cs => if isPySpace c then dropPySpaces cs else c :: cs

/-- Take the maximal leading run of ASCII digits, as the regex digit-run does. -/
def leadingDigits : List Char → List Char
  | [] => []
  | c :: cs => if c.isDigit then c :: leadingDigits cs else []

/-- Decimal value of a digit string, as Python's int() computes it. -/
def digitsVal (ds : List Char) : Nat :=
  ds.foldl (fun acc c => 10 * acc + (c.toNat - 48)) 0

/-- Embedding of extract_number (merge_pdfs.py lines 19-31, and the identical
nested copies in both GUI files): re.match over optional whitespace then one or
more digits; on a match, the integer value of the match; otherwise None (after
a logged warning, which the model omits). -/
def extract_number (filename : String) : Option Nat :=
  let ds := leadingDigits (dropPySpaces filename.toList)
  if ds.isEmpty then none else some (digitsVal ds)

/-- Prefix comparison: does the second list start with the first? -/
def matchAt : List Char → List Char → Bool
  | [], _ => true
  | _ :: _, [] => false
  | a :: as, b :: bs => a == b && matchAt as bs

/-- Substring test, the embedding of Python's "x in s" on strings. -/
def hasSub (pat : List Char) : List Char → Bool
  | [] => pat.isEmpty
  | c :: t => matchAt pat (c :: t) || hasSub pat t

/-- ASCII lowercasing, the embedding of str.lower on the filenames involved. -/
def pyLower (s : String) : String := String.mk (s.toList.map Char.toLower)

/-- Case-sensitive suffix test, the embedding of str.endswith. -/
def endsWithS (s suf : String) : Bool := suf.toList.isSuffixOf s.toList

/-- Resolution test of the script variant (merge_pdfs.py line 44):
filename.endswith('.pdf') and "cb3 reso" in filename.lower(). -/
def isResoName (f : String) : Bool :=
  endsWithS f pdfExt && hasSub cb3Marker.toList (pyLower f).toList

/-- Stipulation test of the script variant (merge_pdfs.py line 47). Because the
two branch conditions are mutually exclusive, the elif chain reduces to this
plain test. -/
def isStipName (f : String) : Bool :=
  endsWithS f pdfExt && !(hasSub cb3Marker.toList (pyLower f).toList)

/-- The resolutions bucket built by the script variant's pair_files loop. -/
def resolutions (files : List String) : List String := files.filter isResoName

/-- The stipulations bucket built by the script variant's pair_files loop. -/
def stipulations (files : List String) : List String := files.filter isStipName

/-- Cross-product pairing loop shared by all pair_files variants: for every
resolution r and stipulation s, emit (r, s) when the extracted keys are equal
(Option equality, so two None keys also compare equal, as in Python). -/
def crossPairs (rs ss : List String) : List (String × String) :=
  rs.flatMap (fun r =>
    (ss.filter (fun s => decide (extract_number r = extract_number s))).map
      (fun s => (r, s)))

/-- Embedding of pair_files of the script variant (merge_pdfs.py lines 33-56). -/
def pair_files (files : List String) : List (String × String) :=
  crossPairs (resolutions files) (stipulations files)

/-- The re.match leading-number guard the GUI variants add to both buckets. -/
def matchesNumPre (f : String) : Bool :=
  !((leadingDigits (dropPySpaces f.toList)).isEmpty)

/-- Resolution test of the GUI variants (pdf_merge_tool.py line 56,
pdf_tool_gui.py line 56): the script test plus the leading-number guard. -/
def isResoNameG (f : String) : Bool :=
  endsWithS f pdfExt && hasSub cb3Marker.toList (pyLower f).toList && matchesNumPre f

/-- Stipulation test of the GUI variants (pdf_merge_tool.py line 59,
pdf_tool_gui.py line 59). -/
def isStipNameG (f : String) : Bool :=
  endsWithS f pdfExt && !(hasSub cb3Marker.toList (pyLower f).toList) && matchesNumPre f

/-- The resolutions bucket built by the GUI variants' pair_files loop. -/
def resolutionsG (files : List String) : List String := files.filter isResoNameG

/-- The stipulations bucket built by the GUI variants' pair_files loop. -/
def stipulationsG (files : List String) : List String := files.filter isStipNameG

/-- Embedding of pair_files of both GUI variants (pdf_merge_tool.py lines 45-72,
pdf_tool_gui.py lines 45-72): None when either bucket is empty (Python list
truthiness), otherwise the cross-product pairs. -/
def pair_files_gui (files : List String) : Option (List (String × String)) :=
  let rs := resolutionsG files
  let ss := stipulationsG files
  if rs.isEmpty || ss.isEmpty then none
  else some (crossPairs rs ss)

/-- Worker for the replace model: scans the text left to right; a positive
skip count drops characters already consumed by a previous pattern match.
At skip 0, a match of the pattern (o :: os) at the current position emits the
replacement and schedules the matched tail to be skipped; otherwise the
character is kept. This is the non-overlapping left-to-right semantics of
Python's str.replace for a non-empty pattern. -/
def replAux (o : Char) (os rep : List Char) : List Char → Nat → List Char
  | [], _ => []
  | _ :: t, Nat.succ k => replAux o os rep t k
  | c :: t, 0 =>
    if o == c && matchAt os t then rep ++ replAux o os rep t os.length
    else c :: replAux o os rep t 0

/-- Embedding of str.replace(old, new) for the non-empty pattern o :: os. -/
def pyReplace (o : Char) (os rep l : List Char) : List Char :=
  replAux o os rep l 0

/-- Embedding of the automatic-flow output name (merge_pdfs.py line 81,
pdf_merge_tool.py line 94, pdf_tool_gui.py line 94):
p[0].replace(".pdf", " wSTIPS.pdf"). -/
def output_filename (name : String) : String :=
  String.mk (pyReplace '.' pdfTail stipSuffix.toList name.toList)

/-- Model of the external pypdf PdfWriter (spec section 6): the accumulated
page stream of the documents appended so far. -/
structure PdfWriter where
  pagesAcc : List Nat

/-- Model of PdfWriter.append: concatenates the appended document's page
stream, preserving order (spec section 6). -/
def PdfWriter.appendDoc (w : PdfWriter) (doc : List Nat) : PdfWriter :=
  PdfWriter.mk (w.pagesAcc ++ doc)

/-- One iteration of the merge loop (merge_pdfs.py lines 71-88 and the GUI
analogues): a fresh PdfWriter, append each file of the pair in order, and the
write of the merged page stream under the derived output name. The pages
oracle maps a filename to that document's page stream. -/
def mergePair (pages : String → List Nat) (p : String × String) :
    String × List Nat :=
  (output_filename p.1,
    (([p.1, p.2]).foldl (fun w f => w.appendDoc (pages f)) (PdfWriter.mk [])).pagesAcc)

/-- Embedding of main() of the script variant (merge_pdfs.py lines 59-88),
abstracting the fixed folders: the list of (filename, page stream) writes. -/
def script_main (pages : String → List Nat) (files : List String) :
    List (String × List Nat) :=
  (pair_files files).map (mergePair pages)

/-- Status message constants of the GUI variants. -/
def okMsg : String := "Merge completed successfully."

/-- Error status of pdf_tool_gui.py line 107 when no valid pairs exist. -/
def autoErrMsg : String := "Error: folder does not contain files valid for auto-merge"

/-- Status set when inputs are accepted by a change handler. -/
def readyMsg : String := "Ready"

/-- Validation message of pdf_tool_gui.py line 234 (both files invalid). -/
def badBothMsg : String := "Invalid file selection - verify that chosen files are PDF files."

/-- Validation message of pdf_tool_gui.py line 228 (first file invalid). -/
def badPdf1Msg : String := "Invalid file selection - verify that PDF #1 is a PDF file."

/-- Validation message of pdf_tool_gui.py line 231 (second file invalid). -/
def badPdf2Msg : String := "Invalid file selection - verify that PDF #2 is a PDF file."

/-- Radio-button value selecting the automatic flow. -/
def autoMode : String := "auto_merge"

/-- Radio-button value selecting the manual flow. -/
def manualMode : String := "manual_merge"

/-- Embedding of auto_merge_pdfs of pdf_tool_gui.py (lines 25-107): the list
of writes together with the status message set (always one in this variant:
success when pairs is truthy, the error status otherwise). -/
def auto_merge_pdfs_gui (pages : String → List Nat) (files : List String) :
    List (String × List Nat) × Option String :=
  match pair_files_gui files with
  | some ps =>
    if ps.isEmpty then ([], some autoErrMsg)
    else (ps.map (mergePair pages), some okMsg)
  | none => ([], some autoErrMsg)

/-- Embedding of auto_merge_pdfs of pdf_merge_tool.py (lines 25-104): same
merge loop, but the falsy-pairs branch has no else arm, so no status message
is set there (modelled as none). -/
def auto_merge_pdfs_tool (pages : String → List Nat) (files : List String) :
    List (String × List Nat) × Option String :=
  match pair_files_gui files with
  | some ps =>
    if ps.isEmpty then ([], none)
    else (ps.map (mergePair pages), some okMsg)
  | none => ([], none)

/-- Embedding of folder_contains_pdfs (pdf_merge_tool.py lines 167-174,
pdf_tool_gui.py lines 181-188) on an accessible folder's listing. -/
def folder_contains_pdfs (files : List String) : Bool :=
  files.any (fun f => endsWithS (pyLower f) pdfExt)

/-- Embedding of is_pdf_file (pdf_merge_tool.py line 178, pdf_tool_gui.py
line 216): os.path.isfile is the oracle parameter. -/
def is_pdf_file (isfile : String → Bool) (filepath : String) : Bool :=
  isfile filepath && endsWithS (pyLower filepath) pdfExt

/-- State of the tkinter Merge button. -/
inductive BtnState
  | normal
  | disabled
deriving DecidableEq

/-- Python truthiness of a string: non-empty. -/
def pyTruthy (s : String) : Bool := !(s.isEmpty)

/-- Embedding of on_file_change of pdf_tool_gui.py (lines 219-234), the
handler traced on both manual file fields: resulting button state and status
message. -/
def on_file_change (isfile : String → Bool) (file1 file2 : String) :
    BtnState × String :=
  if is_pdf_file isfile file1 && is_pdf_file isfile file2 then
    (BtnState.normal, readyMsg)
  else if !(is_pdf_file isfile file1) && is_pdf_file isfile file2 then
    (BtnState.disabled, badPdf1Msg)
  else if is_pdf_file isfile file1 && !(is_pdf_file isfile file2) then
    (BtnState.disabled, badPdf2Msg)
  else
    (BtnState.disabled, badBothMsg)

/-- Embedding of check_for_inputs of pdf_merge_tool.py (lines 216-232), the
handler traced on every field: resulting button state, and the feedback
message when one is set (the disable branches set none). -/
def check_for_inputs (radio autoFolder outPath pdf1 pdf2 outName : String) :
    BtnState × Option String :=
  if radio == autoMode then
    if pyTruthy autoFolder && pyTruthy outPath then (BtnState.normal, some readyMsg)
    else (BtnState.disabled, none)
  else
    if pyTruthy pdf1 && pyTruthy pdf2 && pyTruthy outName && pyTruthy outPath then
      (BtnState.normal, some readyMsg)
    else (BtnState.disabled, none)

/-! Helper lemmas about the pairing loop. -/

lemma mem_crossPairs {rs ss : List String} {r s : String} :
    (r, s) ∈ crossPairs rs ss ↔
      r ∈ rs ∧ s ∈ ss ∧ extract_number r = extract_number s := by
  simp only [crossPairs, List.mem_flatMap, List.mem_map, List.mem_filter,
    decide_eq_true_eq, Prod.mk.injEq]
  constructor
  · rintro ⟨a, ha, b, ⟨hb, he⟩, h1, h2⟩
    subst h1; subst h2
    exact ⟨ha, hb, he⟩
  · rintro ⟨hr, hs, he⟩
    exact ⟨r, hr, s, ⟨hs, he⟩, rfl, rfl⟩

lemma filter_map_pairFst (r : String) (P : String × String → Bool)
    (l : List String) :
    ((l.map (fun s => (r, s))).filter P)
      = (l.filter (fun s => P (r, s))).map (fun s => (r, s)) := by
  induction l with
  | nil => rfl
  | cons s l ih =>
    by_cases h : P (r, s) = true
    · simp [h, ih]
    · simp only [Bool.not_eq_true] at h
      simp [h, ih]

lemma length_filter_crossPairs (rs ss : List String) (n : Nat) :
    ((crossPairs rs ss).filter
        (fun p => decide (extract_number p.1 = some n))).length
      = ((rs.filter (fun f => decide (extract_number f = some n))).length)
        * ((ss.filter (fun f => decide (extract_number f = some n))).length) := by
  induction rs with
  | nil => simp [crossPairs]
  | cons r rs ih =>
    have hsplit :
        crossPairs (r :: rs) ss
          = ((ss.filter (fun s => decide (extract_number r = extract_number s))).map
              (fun s => (r, s))) ++ crossPairs rs ss := by
      simp [crossPairs]
    rw [hsplit, List.filter_append, List.length_append, ih,
      filter_map_pairFst, List.length_map]
    by_cases h : extract_number r = some n
    · have hconst :
          (fun s : String => decide (extract_number (r, s).1 = some n)) = fun _ => true := by
        funext s; simp [h]
      rw [hconst, List.filter_true]
      have hpred :
          ((ss.filter (fun s => decide (extract_number r = extract_number s))).length)
            = ((ss.filter (fun f => decide (extract_number f = some n))).length) := by
        have : ∀ s ∈ ss,
            (decide (extract_number r = extract_number s))
              = (decide (extract_number s = some n)) := by
          intro s _
          rw [h]
          rcases hs : extract_number s with _ | m <;> simp [eq_comm]
        rw [List.filter_congr this]
      rw [hpred]
      have hr : (decide (extract_number r = some n)) = true := by simp [h]
      simp only [List.filter_cons, hr, if_true, List.length_cons]
      ring
    · have hconst :
          (fun s : String => decide (extract_number (r, s).1 = some n)) = fun _ => false := by
        funext s; simp [h]
      rw [hconst, List.filter_false]
      have hr : (decide (extract_number r = some n)) = false := by simp [h]
      simp [List.filter_cons, hr]

/-! Helper lemmas about the leading-number regex model. -/

lemma isPySpace_of_isDigit {c : Char} (h : c.isDigit = true) :
    isPySpace c = false := by
  by_contra hc
  rw [Bool.not_eq_false] at hc
  simp only [isPySpace, Bool.or_eq_true, beq_iff_eq] at hc
  rcases hc with ((((h1 | h1) | h1) | h1) | h1) | h1 <;> subst h1 <;>
    exact absurd h (by decide)

lemma dropPySpaces_append {ws t : List Char}
    (hw : ∀ c ∈ ws, isPySpace c = true)
    (ht : ∀ c t', t = c :: t' → isPySpace c = false) :
    dropPySpaces (ws ++ t) = t := by
  induction ws with
  | nil =>
    cases t with
    | nil => rfl
    | cons c t' => simp [dropPySpaces, ht c t' rfl]
  | cons w ws ih =>
    have hw0 : isPySpace w = true := hw w (List.mem_cons_self w ws)
    have hw' : ∀ c ∈ ws, isPySpace c = true := fun c hc => hw c (List.mem_cons_of_mem w hc)
    simp [dropPySpaces, hw0, ih hw']

lemma exists_spaces_decomp (l : List Char) :
    ∃ ws, l = ws ++ dropPySpaces l ∧ ∀ c ∈ ws, isPySpace c = true := by
  induction l with
  | nil => exact ⟨[], rfl, by simp⟩
  | cons c t ih =>
    by_cases h : isPySpace c = true
    · obtain ⟨ws, hws, hall⟩ := ih
      refine ⟨c :: ws, ?_, ?_⟩
      · simp [dropPySpaces, h]
        exact hws
      · intro b hb
        rcases List.mem_cons.mp hb with hb | hb
        · subst hb; exact h
        · exact hall b hb
    · rw [Bool.not_eq_true] at h
      exact ⟨[], by simp [dropPySpaces, h], by simp⟩

lemma head_dropPySpaces {l c : _} {t : List Char}
    (h : dropPySpaces l = c :: t) : isPySpace c = false := by
  induction l with
  | nil => simp [dropPySpaces] at h
  | cons a l ih =>
    by_cases ha : isPySpace a = true
    · rw [dropPySpaces, if_pos ha] at h
      exact ih h
    · rw [dropPySpaces, if_neg ha] at h
      rw [Bool.not_eq_true] at ha
      cases h
      exact ha

lemma leadingDigits_append {ds t : List Char}
    (hd : ∀ c ∈ ds, c.isDigit = true)
    (ht : ∀ c t', t = c :: t' → c.isDigit = false) :
    leadingDigits (ds ++ t) = ds := by
  induction ds with
  | nil =>
    cases t with
    | nil => rfl
    | cons c t' => simp [leadingDigits, ht c t' rfl]
  | cons d ds ih =>
    have hd0 : d.isDigit = true := hd d (List.mem_cons_self d ds)
    have hd' : ∀ c ∈ ds, c.isDigit = true := fun c hc => hd c (List.mem_cons_of_mem d hc)
    simp [leadingDigits, hd0, ih hd']

lemma extract_number_mk (l : List Char) :
    extract_number (String.mk l)
      = (if (leadingDigits (dropPySpaces l)).isEmpty then none
         else some (digitsVal (leadingDigits (dropPySpaces l)))) := rfl

lemma extract_isSome (f : String) :
    (extract_number f).isSome = matchesNumPre f := by
  rw [extract_number, matchesNumPre]
  rcases h : (leadingDigits (dropPySpaces f.toList)).isEmpty <;> simp [h]

/-! Helper lemmas about the replace model, for the output-filename claim. -/

lemma matchAt_length_le {os l : List Char} (h : matchAt os l = true) :
    os.length ≤ l.length := by
  induction os generalizing l with
  | nil => simp
  | cons a as ih =>
    cases l with
    | nil => simp [matchAt] at h
    | cons b bs =>
      rw [matchAt, Bool.and_eq_true] at h
      simpa using ih h.2

lemma matchAt_append_left {os stem t : List Char} (h : os.length ≤ stem.length) :
    matchAt os (stem ++ t) = matchAt os stem := by
  induction os generalizing stem with
  | nil => simp [matchAt]
  | cons a as ih =>
    cases stem with
    | nil => simp at h
    | cons b bs =>
      have h' : as.length ≤ bs.length := by simpa using h
      calc matchAt (a :: as) ((b :: bs) ++ t)
          = (a == b && matchAt as (bs ++ t)) := rfl
        _ = (a == b && matchAt as bs) := by rw [ih h']
        _ = matchAt (a :: as) (b :: bs) := rfl

lemma matchAt_no_dot {os stem rest : List Char}
    (hos : ∀ x ∈ os, x ≠ '.') (h : matchAt os (stem ++ '.' :: rest) = true) :
    os.length ≤ stem.length := by
  induction os generalizing stem with
  | nil => simp
  | cons a as ih =>
    cases stem with
    | nil =>
      simp only [List.nil_append, matchAt, Bool.and_eq_true, beq_iff_eq] at h
      exact absurd h.1 (hos a (List.mem_cons_self a as))
    | cons b bs =>
      simp only [List.cons_append, matchAt, Bool.and_eq_true] at h
      have := ih (fun x hx => hos x (List.mem_cons_of_mem a hx)) h.2
      simpa using this

lemma replAux_pat_suffix (rep : List Char) :
    ∀ stem : List Char, hasSub (pdfExt.toList) stem = false →
      replAux '.' pdfTail rep (stem ++ pdfExt.toList) 0 = stem ++ rep := by
  intro stem
  induction stem with
  | nil =>
    intro _
    show rep ++ replAux '.' pdfTail rep pdfTail pdfTail.length = [] ++ rep
    have hz : replAux '.' pdfTail rep pdfTail pdfTail.length = [] := rfl
    rw [hz]
    simp
  | cons c stem ih =>
    intro h
    rw [hasSub, Bool.or_eq_false_iff] at h
    have hcond : ('.' == c && matchAt pdfTail (stem ++ pdfExt.toList)) = false := by
      by_contra hc
      rw [Bool.not_eq_false, Bool.and_eq_true, beq_iff_eq] at hc
      obtain ⟨hdot, hmatch⟩ := hc
      have hext : pdfExt.toList = '.' :: pdfTail := rfl
      rw [hext] at hmatch
      have hlen : pdfTail.length ≤ stem.length :=
        matchAt_no_dot (by decide) hmatch
      have hstem : matchAt pdfTail stem = true := by
        rw [← matchAt_append_left (t := '.' :: pdfTail) hlen]
        exact hmatch
      have : matchAt (pdfExt.toList) (c :: stem) = true := by
        rw [hext, matchAt, Bool.and_eq_true, beq_iff_eq]
        exact ⟨hdot, hstem⟩
      rw [this] at h
      exact absurd h.1 (by decide)
    calc replAux '.' pdfTail rep ((c :: stem) ++ pdfExt.toList) 0
        = c :: replAux '.' pdfTail rep (stem ++ pdfExt.toList) 0 := by
          rw [List.cons_append, replAux, hcond]
          simp
      _ = c :: (stem ++ rep) := by rw [ih h.2]
      _ = (c :: stem) ++ rep := rfl


lemma extract_number_eq (f : String) :
    extract_number f
      = (if (leadingDigits (dropPySpaces f.toList)).isEmpty then none
         else some (digitsVal (leadingDigits (dropPySpaces f.toList)))) := rfl

lemma pair_files_gui_eq (files : List String) :
    pair_files_gui files
      = if (resolutionsG files).isEmpty || (stipulationsG files).isEmpty then none
        else some (crossPairs (resolutionsG files) (stipulationsG files)) := rfl

/-! Concrete filenames used by the claim instances. -/

/-- Resolution filename of the spec's worked example. -/
def exReso : String := "12 cb3 reso.pdf"

/-- Stipulation filename of the spec's worked example. -/
def exStip : String := "12 stipulation.pdf"

/-- Expected merged output name of the spec's worked example. -/
def exMerged : String := "12 cb3 reso wSTIPS.pdf"

/-- A resolution filename with no leading number. -/
def exResoNoNum : String := "cb3 reso.pdf"

/-- A stipulation filename with no leading number. -/
def exStipNoNum : String := "stipulation.pdf"

/-- A resolution filename in which ".pdf" occurs before the extension too. -/
def exResoTwoPdf : String := "12.pdf cb3 reso.pdf"

/-- A stipulation filename pairing with exResoTwoPdf. -/
def exStipShort : String := "12 stip.pdf"

/-- Every ".pdf" occurrence of exResoTwoPdf replaced, as the code computes. -/
def exTwoOut : String := "12 wSTIPS.pdf cb3 reso wSTIPS.pdf"

/-- Only the trailing ".pdf" of exResoTwoPdf replaced, as the claim states. -/
def exTwoTrail : String := "12.pdf cb3 reso wSTIPS.pdf"

/-- A resolution filename with an upper-case extension. -/
def exUpper : String := "12 cb3 reso.PDF"

/-- A resolution filename with a zero-padded leading number. -/
def exReso012 : String := "012 cb3 reso.pdf"

/-- A manually selected non-PDF path. -/
def exTxt1 : String := "notes.txt"

/-- Another manually selected non-PDF path. -/
def exTxt2 : String := "draft.txt"

/-- A non-empty output-folder field value. -/
def exOutDir : String := "outdir"

/-- A non-empty output-filename field value. -/
def exOutName : String := "merged.pdf"

/-- The empty field value. -/
def emptyS : String := ""

/-! The claims. -/

/-- C1 counterexample: in the script variant, two files from which no leading
integer can be extracted (extraction returns None for both) are nevertheless
paired with each other, because Python's None == None holds in the key
comparison; so a no-number file does appear in a produced pair. -/
theorem c1_counterexample :
    extract_number exResoNoNum = none ∧ extract_number exStipNoNum = none ∧
    pair_files [exResoNoNum, exStipNoNum] = [(exResoNoNum, exStipNoNum)] :=
  ⟨by decide, by decide, by decide⟩

/-- C1 (amended): in the GUI variants a filename whose extraction returns None
never appears in any produced pair; in the script variant the two components
of every produced pair have equal extracted keys, so a no-number file is only
ever paired with another no-number file. -/
theorem c1_no_number_pairing (files : List String) :
    (∀ ps, pair_files_gui files = some ps → ∀ p ∈ ps,
        (extract_number p.1).isSome = true ∧ (extract_number p.2).isSome = true) ∧
    (∀ p ∈ pair_files files, extract_number p.1 = extract_number p.2) := by
  constructor
  · intro ps hps p hp
    rw [pair_files_gui_eq] at hps
    split at hps
    · cases hps
    · injection hps with hps
      subst hps
      rcases p with ⟨r, s⟩
      obtain ⟨hr, hs, _⟩ := mem_crossPairs.mp hp
      have hr' : isResoNameG r = true := (List.mem_filter.mp hr).2
      have hs' : isStipNameG s = true := (List.mem_filter.mp hs).2
      rw [isResoNameG, Bool.and_eq_true, Bool.and_eq_true] at hr'
      rw [isStipNameG, Bool.and_eq_true, Bool.and_eq_true] at hs'
      constructor
      · rw [extract_isSome]
        exact hr'.2
      · rw [extract_isSome]
        exact hs'.2
  · intro p hp
    rcases p with ⟨r, s⟩
    exact (mem_crossPairs.mp hp).2.2

/-- C1 witness: the amended statement instantiated on a concrete listing. -/
theorem c1_no_number_pairing_holds :
    (extract_number exReso).isSome = true ∧
    extract_number exReso = extract_number exStip := by
  constructor
  · exact ((c1_no_number_pairing [exReso, exStip]).1 [(exReso, exStip)]
      (by decide) (exReso, exStip) (by decide)).1
  · exact (c1_no_number_pairing [exReso, exStip]).2 (exReso, exStip) (by decide)

/-- C2 counterexample: str.replace substitutes every occurrence of ".pdf", not
only the trailing one; on the pair formed from "12.pdf cb3 reso.pdf" the
produced output name differs from the name with only the trailing extension
replaced. -/
theorem c2_counterexample :
    pair_files [exResoTwoPdf, exStipShort] = [(exResoTwoPdf, exStipShort)] ∧
    output_filename exResoTwoPdf = exTwoOut ∧
    exTwoOut ≠ exTwoTrail :=
  ⟨by decide, by decide, by decide⟩

/-- C2 (amended): the automatic-flow output name replaces every occurrence of
".pdf" by " wSTIPS.pdf"; in particular, whenever ".pdf" occurs in the
resolution name only as its trailing extension, the output name is the stem
followed by " wSTIPS.pdf", with no other part of the name altered. -/
theorem c2_output_filename_trailing (stem : List Char)
    (h : hasSub pdfExt.toList stem = false) :
    output_filename (String.mk (stem ++ pdfExt.toList))
      = String.mk (stem ++ stipSuffix.toList) := by
  rw [output_filename]
  have ht : (String.mk (stem ++ pdfExt.toList)).toList = stem ++ pdfExt.toList := rfl
  rw [ht, pyReplace, replAux_pat_suffix _ stem h]

/-- C2 witness: the amended statement instantiated on the worked example. -/
theorem c2_output_filename_trailing_holds :
    output_filename exReso = exMerged := by
  have h := c2_output_filename_trailing (("12 cb3 reso").toList) (by decide)
  have e1 : String.mk ((("12 cb3 reso").toList) ++ pdfExt.toList) = exReso := by decide
  have e2 : String.mk ((("12 cb3 reso").toList) ++ stipSuffix.toList) = exMerged := by
    decide
  rw [e1, e2] at h
  exact h

/-- C3: on a folder holding one resolution file and no stipulation files, the
pdf_tool_gui variant performs no writes and sets the error status, while the
pdf_merge_tool variant performs no writes but sets no status message at all:
its falsy-pairs path has no else arm, although the pair_files comment in that
very file says the None return is meant to trigger an error message. -/
theorem c3_no_pairs_status :
    auto_merge_pdfs_gui (fun _ => []) [exReso] = ([], some autoErrMsg) ∧
    auto_merge_pdfs_tool (fun _ => []) [exReso] = ([], none) :=
  ⟨by decide, by decide⟩

/-- C4 counterexample: in pdf_merge_tool, the input-change handler
check_for_inputs enables the Merge button and reports Ready although both
selected paths fail is_pdf_file, because it only tests the fields for
non-emptiness. -/
theorem c4_counterexample :
    is_pdf_file (fun _ => true) exTxt1 = false ∧
    is_pdf_file (fun _ => true) exTxt2 = false ∧
    check_for_inputs manualMode emptyS exOutDir exTxt1 exTxt2 exOutName
      = (BtnState.normal, some readyMsg) :=
  ⟨by decide, by decide, by decide⟩

/-- C4 (amended): in pdf_tool_gui the input-change handler on_file_change
disables the Merge button and sets the combined validation message whenever
both selected paths fail the PDF test; in pdf_merge_tool the input-change
handler check_for_inputs tests only non-emptiness and enables the button
(reporting Ready) for any non-empty inputs regardless of the PDF test,
deferring is_pdf_file validation to the merge-click path. -/
theorem c4_on_file_change_both_invalid :
    (∀ (isfile : String → Bool) (f1 f2 : String),
        is_pdf_file isfile f1 = false → is_pdf_file isfile f2 = false →
        on_file_change isfile f1 f2 = (BtnState.disabled, badBothMsg)) ∧
    (∀ fol op f1 f2 onm : String,
        pyTruthy f1 = true → pyTruthy f2 = true → pyTruthy onm = true →
        pyTruthy op = true →
        check_for_inputs manualMode fol op f1 f2 onm
          = (BtnState.normal, some readyMsg)) := by
  constructor
  · intro isfile f1 f2 h1 h2
    simp [on_file_change, h1, h2]
  · intro fol op f1 f2 onm h1 h2 h3 h4
    have hm : (manualMode == autoMode) = false := by decide
    simp [check_for_inputs, hm, h1, h2, h3, h4]

/-- C4 witness: the amended statement instantiated on concrete inputs. -/
theorem c4_on_file_change_both_invalid_holds :
    on_file_change (fun _ => false) exTxt1 exTxt2
      = (BtnState.disabled, badBothMsg) ∧
    check_for_inputs manualMode emptyS exOutDir exTxt1 exTxt2 exOutName
      = (BtnState.normal, some readyMsg) := by
  constructor
  · exact c4_on_file_change_both_invalid.1 (fun _ => false) exTxt1 exTxt2
      (by decide) (by decide)
  · exact c4_on_file_change_both_invalid.2 emptyS exOutDir exTxt1 exTxt2 exOutName
      (by decide) (by decide) (by decide) (by decide)

/-- C5: a resolution and a stipulation sharing their extracted leading integer
are paired by pair_files, in the script and in the GUI variants, and the
script variant's pairing is the full cross product: the number of produced
pairs keyed n equals the number of resolutions keyed n times the number of
stipulations keyed n. -/
theorem c5_pair_files_cross_product (files : List String) (n : Nat) :
    (∀ r s, r ∈ resolutions files → s ∈ stipulations files →
        extract_number r = some n → extract_number s = some n →
        (r, s) ∈ pair_files files) ∧
    ((pair_files files).filter
        (fun p => decide (extract_number p.1 = some n))).length
      = ((resolutions files).filter
          (fun f => decide (extract_number f = some n))).length
        * ((stipulations files).filter
            (fun f => decide (extract_number f = some n))).length ∧
    (∀ r s, r ∈ resolutionsG files → s ∈ stipulationsG files →
        extract_number r = some n → extract_number s = some n →
        ∃ ps, pair_files_gui files = some ps ∧ (r, s) ∈ ps) := by
  refine ⟨?_, ?_, ?_⟩
  · intro r s hr hs hrn hsn
    exact mem_crossPairs.mpr ⟨hr, hs, by rw [hrn, hsn]⟩
  · exact length_filter_crossPairs _ _ n
  · intro r s hr hs hrn hsn
    refine ⟨crossPairs (resolutionsG files) (stipulationsG files), ?_, ?_⟩
    · rw [pair_files_gui_eq]
      have h1 : (resolutionsG files).isEmpty = false := by
        cases hx : resolutionsG files with
        | nil => rw [hx] at hr; simp at hr
        | cons a l => rfl
      have h2 : (stipulationsG files).isEmpty = false := by
        cases hx : stipulationsG files with
        | nil => rw [hx] at hs; simp at hs
        | cons a l => rfl
      simp [h1, h2]
    · exact mem_crossPairs.mpr ⟨hr, hs, by rw [hrn, hsn]⟩

/-- C5 witness: the statement instantiated on the worked example, key 12. -/
theorem c5_pair_files_cross_product_holds :
    (exReso, exStip) ∈ pair_files [exReso, exStip] ∧
    (∃ ps, pair_files_gui [exReso, exStip] = some ps ∧ (exReso, exStip) ∈ ps) := by
  constructor
  · exact (c5_pair_files_cross_product [exReso, exStip] 12).1 exReso exStip
      (by decide) (by decide) (by decide) (by decide)
  · exact (c5_pair_files_cross_product [exReso, exStip] 12).2.2 exReso exStip
      (by decide) (by decide) (by decide) (by decide)

/-- C6: every merge appends the resolution's page stream and then the
stipulation's page stream, in the pair's order; on a folder containing exactly
"12 cb3 reso.pdf" and "12 stipulation.pdf", the script and the pdf_tool_gui
automatic flow each produce exactly one output, named
"12 cb3 reso wSTIPS.pdf", holding the resolution's pages followed by the
stipulation's pages. -/
theorem c6_merge_order (pages : String → List Nat) :
    (∀ p : String × String, (mergePair pages p).2 = pages p.1 ++ pages p.2) ∧
    script_main pages [exReso, exStip]
      = [(exMerged, pages exReso ++ pages exStip)] ∧
    auto_merge_pdfs_gui pages [exReso, exStip]
      = ([(exMerged, pages exReso ++ pages exStip)], some okMsg) := by
  have hout : output_filename exReso = exMerged := by decide
  refine ⟨?_, ?_, ?_⟩
  · intro p
    show ([] ++ pages p.1) ++ pages p.2 = pages p.1 ++ pages p.2
    simp
  · have hp : pair_files [exReso, exStip] = [(exReso, exStip)] := by decide
    show (pair_files [exReso, exStip]).map (mergePair pages) = _
    rw [hp]
    show [(output_filename exReso, ([] ++ pages exReso) ++ pages exStip)] = _
    rw [hout]
    simp
  · have hg : pair_files_gui [exReso, exStip] = some [(exReso, exStip)] := by decide
    show auto_merge_pdfs_gui pages [exReso, exStip] = _
    rw [auto_merge_pdfs_gui, hg]
    show ([(output_filename exReso, ([] ++ pages exReso) ++ pages exStip)],
        some okMsg) = _
    rw [hout]
    simp

/-- C7: extract_number returns the value of the leading digit run whenever the
filename is optional whitespace followed by one or more digits, and returns
None exactly when the filename has no such prefix. -/
theorem c7_extract_number_spec :
    (∀ ws ds t : List Char,
        (∀ c ∈ ws, isPySpace c = true) → ds ≠ [] →
        (∀ c ∈ ds, c.isDigit = true) →
        (∀ c t', t = c :: t' → c.isDigit = false) →
        extract_number (String.mk (ws ++ (ds ++ t))) = some (digitsVal ds)) ∧
    (∀ f : String, extract_number f = none ↔
        ∀ ws c t, f.toList = ws ++ c :: t →
          (∀ b ∈ ws, isPySpace b = true) → c.isDigit = false) := by
  constructor
  · intro ws ds t hws hne hds ht
    rw [extract_number_mk]
    have hdrop : dropPySpaces (ws ++ (ds ++ t)) = ds ++ t := by
      apply dropPySpaces_append hws
      intro c t' he
      cases ds with
      | nil => exact absurd rfl hne
      | cons d ds' =>
        rw [List.cons_append] at he
        injection he with h1 h2
        rw [← h1]
        exact isPySpace_of_isDigit (hds d (List.mem_cons_self d ds'))
    rw [hdrop, leadingDigits_append hds ht]
    cases ds with
    | nil => exact absurd rfl hne
    | cons d ds' => rfl
  · intro f
    constructor
    · intro hnone ws c t hdecomp hws
      by_contra hc
      rw [Bool.not_eq_false] at hc
      have hdrop : dropPySpaces f.toList = c :: t := by
        rw [hdecomp]
        apply dropPySpaces_append hws
        intro b t' he
        injection he with h1 h2
        rw [← h1]
        exact isPySpace_of_isDigit hc
      rw [extract_number_eq, hdrop] at hnone
      simp [leadingDigits, hc] at hnone
    · intro hall
      obtain ⟨ws, hdecomp, hws⟩ := exists_spaces_decomp f.toList
      rw [extract_number_eq]
      cases hx : dropPySpaces f.toList with
      | nil => rfl
      | cons c t =>
        have hcd : c.isDigit = false := by
          apply hall ws c t
          · rw [hdecomp, hx]
          · exact hws
        simp [leadingDigits, hcd]

/-- C7 witness: the positive branch instantiated on " 12x". -/
theorem c7_extract_number_spec_holds :
    extract_number (String.mk ([' '] ++ (['1', '2'] ++ ['x']))) = some 12 := by
  apply c7_extract_number_spec.1
  · decide
  · decide
  · decide
  · intro c t' he
    injection he with h1 h2
    rw [← h1]
    decide

/-- C8: every pair produced by pair_files, in the script and in the GUI
variants, is ordered and well-typed: its first element ends in ".pdf" and
contains the marker "cb3 reso" after lowercasing, its second element ends in
".pdf" and lacks the marker, and no filename satisfies both bucket tests. -/
theorem c8_pairs_well_typed (files : List String) :
    (∀ p ∈ pair_files files,
        endsWithS p.1 pdfExt = true ∧
        hasSub cb3Marker.toList (pyLower p.1).toList = true ∧
        endsWithS p.2 pdfExt = true ∧
        hasSub cb3Marker.toList (pyLower p.2).toList = false) ∧
    (∀ ps, pair_files_gui files = some ps → ∀ p ∈ ps,
        endsWithS p.1 pdfExt = true ∧
        hasSub cb3Marker.toList (pyLower p.1).toList = true ∧
        endsWithS p.2 pdfExt = true ∧
        hasSub cb3Marker.toList (pyLower p.2).toList = false) ∧
    (∀ f, ¬(f ∈ resolutions files ∧ f ∈ stipulations files)) ∧
    (∀ f, ¬(f ∈ resolutionsG files ∧ f ∈ stipulationsG files)) := by
  refine ⟨?_, ?_, ?_, ?_⟩
  · intro p hp
    rcases p with ⟨r, s⟩
    obtain ⟨hr, hs, _⟩ := mem_crossPairs.mp hp
    have hr' : isResoName r = true := (List.mem_filter.mp hr).2
    have hs' : isStipName s = true := (List.mem_filter.mp hs).2
    rw [isResoName, Bool.and_eq_true] at hr'
    rw [isStipName, Bool.and_eq_true, Bool.not_eq_true'] at hs'
    exact ⟨hr'.1, hr'.2, hs'.1, hs'.2⟩
  · intro ps hps p hp
    rw [pair_files_gui_eq] at hps
    split at hps
    · cases hps
    · injection hps with hps
      subst hps
      rcases p with ⟨r, s⟩
      obtain ⟨hr, hs, _⟩ := mem_crossPairs.mp hp
      have hr' : isResoNameG r = true := (List.mem_filter.mp hr).2
      have hs' : isStipNameG s = true := (List.mem_filter.mp hs).2
      rw [isResoNameG, Bool.and_eq_true, Bool.and_eq_true] at hr'
      rw [isStipNameG, Bool.and_eq_true, Bool.and_eq_true, Bool.not_eq_true'] at hs'
      exact ⟨hr'.1.1, hr'.1.2, hs'.1.1, hs'.1.2⟩
  · rintro f ⟨h1, h2⟩
    have h1' : isResoName f = true := (List.mem_filter.mp h1).2
    have h2' : isStipName f = true := (List.mem_filter.mp h2).2
    rw [isResoName, Bool.and_eq_true] at h1'
    rw [isStipName, Bool.and_eq_true, Bool.not_eq_true'] at h2'
    rw [h1'.2] at h2'
    exact absurd h2'.2 (by decide)
  · rintro f ⟨h1, h2⟩
    have h1' : isResoNameG f = true := (List.mem_filter.mp h1).2
    have h2' : isStipNameG f = true := (List.mem_filter.mp h2).2
    rw [isResoNameG, Bool.and_eq_true, Bool.and_eq_true] at h1'
    rw [isStipNameG, Bool.and_eq_true, Bool.and_eq_true, Bool.not_eq_true'] at h2'
    rw [h1'.1.2] at h2'
    exact absurd h2'.1.2 (by decide)

/-- C8 witness: the typing of the worked example's produced pair. -/
theorem c8_pairs_well_typed_holds :
    endsWithS exReso pdfExt = true ∧
    hasSub cb3Marker.toList (pyLower exStip).toList = false := by
  have h := (c8_pairs_well_typed [exReso, exStip]).1 (exReso, exStip) (by decide)
  exact ⟨h.1, h.2.2.2⟩

/-- C9: the bucket classifier's extension test is case-sensitive: a filename
that ends in ".pdf" only after lowercasing enters neither bucket and appears
in no produced pair, in either variant, yet folder_contains_pdfs counts it as
a PDF when validating the folder. -/
theorem c9_uppercase_pdf_excluded (files : List String) (f : String)
    (hmem : f ∈ files)
    (hlow : endsWithS (pyLower f) pdfExt = true)
    (hcase : endsWithS f pdfExt = false) :
    f ∉ resolutions files ∧ f ∉ stipulations files ∧
    f ∉ resolutionsG files ∧ f ∉ stipulationsG files ∧
    (∀ p ∈ pair_files files, p.1 ≠ f ∧ p.2 ≠ f) ∧
    (∀ ps, pair_files_gui files = some ps → ∀ p ∈ ps, p.1 ≠ f ∧ p.2 ≠ f) ∧
    folder_contains_pdfs files = true := by
  have hres : f ∉ resolutions files := by
    intro h
    have h' : isResoName f = true := (List.mem_filter.mp h).2
    rw [isResoName, Bool.and_eq_true] at h'
    rw [h'.1] at hcase
    cases hcase
  have hstip : f ∉ stipulations files := by
    intro h
    have h' : isStipName f = true := (List.mem_filter.mp h).2
    rw [isStipName, Bool.and_eq_true] at h'
    rw [h'.1] at hcase
    cases hcase
  have hresG : f ∉ resolutionsG files := by
    intro h
    have h' : isResoNameG f = true := (List.mem_filter.mp h).2
    rw [isResoNameG, Bool.and_eq_true, Bool.and_eq_true] at h'
    rw [h'.1.1] at hcase
    cases hcase
  have hstipG : f ∉ stipulationsG files := by
    intro h
    have h' : isStipNameG f = true := (List.mem_filter.mp h).2
    rw [isStipNameG, Bool.and_eq_true, Bool.and_eq_true] at h'
    rw [h'.1.1] at hcase
    cases hcase
  refine ⟨hres, hstip, hresG, hstipG, ?_, ?_, ?_⟩
  · intro p hp
    rcases p with ⟨r, s⟩
    obtain ⟨hr, hs, _⟩ := mem_crossPairs.mp hp
    constructor
    · intro he
      have he' : r = f := he
      rw [he'] at hr
      exact hres hr
    · intro he
      have he' : s = f := he
      rw [he'] at hs
      exact hstip hs
  · intro ps hps p hp
    rw [pair_files_gui_eq] at hps
    split at hps
    · cases hps
    · injection hps with hps
      subst hps
      rcases p with ⟨r, s⟩
      obtain ⟨hr, hs, _⟩ := mem_crossPairs.mp hp
      constructor
      · intro he
        have he' : r = f := he
        rw [he'] at hr
        exact hresG hr
      · intro he
        have he' : s = f := he
        rw [he'] at hs
        exact hstipG hs
  · exact List.any_eq_true.mpr ⟨f, hmem, hlow⟩

/-- C9 witness: the statement instantiated on "12 cb3 reso.PDF". -/
theorem c9_uppercase_pdf_excluded_holds :
    exUpper ∉ resolutions [exUpper] ∧
    folder_contains_pdfs [exUpper] = true := by
  have h := c9_uppercase_pdf_excluded [exUpper] exUpper (by decide) (by decide)
    (by decide)
  exact ⟨h.1, h.2.2.2.2.2.2⟩

/-- C10: pairing keys compare by integer value: prepending a space or a zero
to a digit-leading filename leaves extract_number unchanged, and the files
"012 cb3 reso.pdf" and "12 stipulation.pdf" receive equal keys and form a
pair. -/
theorem c10_value_keys :
    (∀ (d : Char) (t : List Char), d.isDigit = true →
        extract_number (String.mk (' ' :: d :: t))
          = extract_number (String.mk (d :: t)) ∧
        extract_number (String.mk ('0' :: d :: t))
          = extract_number (String.mk (d :: t))) ∧
    extract_number exReso012 = extract_number exStip ∧
    (exReso012, exStip) ∈ pair_files [exReso012, exStip] := by
  refine ⟨?_, by decide, by decide⟩
  intro d t hd
  have hd2 : dropPySpaces (d :: t) = d :: t := by
    show (if isPySpace d then dropPySpaces t else d :: t) = d :: t
    rw [if_neg]
    simp [isPySpace_of_isDigit hd]
  constructor
  · rw [extract_number_mk, extract_number_mk]
    have h1 : dropPySpaces (' ' :: d :: t) = dropPySpaces (d :: t) := by
      show (if isPySpace ' ' then dropPySpaces (d :: t) else ' ' :: d :: t) = _
      rw [if_pos (by decide)]
    rw [h1]
  · rw [extract_number_mk, extract_number_mk]
    have h0 : dropPySpaces ('0' :: d :: t) = '0' :: d :: t := by
      show (if isPySpace '0' then dropPySpaces (d :: t) else '0' :: d :: t) = _
      rw [if_neg (by decide)]
    rw [h0, hd2]
    have hl0 : leadingDigits ('0' :: d :: t) = '0' :: leadingDigits (d :: t) := by
      show (if Char.isDigit '0' then '0' :: leadingDigits (d :: t) else []) = _
      rw [if_pos (by decide)]
    have hl : leadingDigits (d :: t) = d :: leadingDigits t := by
      show (if d.isDigit then d :: leadingDigits t else []) = _
      rw [if_pos hd]
    rw [hl0, hl]
    have hz : digitsVal ('0' :: d :: leadingDigits t) = digitsVal (d :: leadingDigits t) := rfl
    simp [hz]

/-- C10 witness: key invariance instantiated on the filename "1". -/
theorem c10_value_keys_holds :
    extract_number (String.mk (' ' :: '1' :: []))
      = extract_number (String.mk ('1' :: [])) :=
  ((c10_value_keys.1 '1' [] (by decide))).1
